import Mathlib

/-!
Verification of the pydantic-spark schema translator (`src/pydantic_spark/base.py`).

The translator turns a JSON-Schema-style document (nested dictionaries) into a
Spark struct-schema document.  We embed JSON values as an inductive type and
translate each Python function of `_spark_schema` into a Lean function of the
same name.  The Python functions recurse through the `definitions` table, so
termination is not structural on the input; we therefore index the interpreter
by a fuel parameter, decremented at every recursive call.  A fuel exhaustion
is reported as the distinguished error "recursion limit", which never arises
at the fuel values used in the concrete theorems below.
-/

set_option maxHeartbeats 1000000
set_option maxRecDepth 4000

/-- JSON values: the data the Python code manipulates as nested dicts/lists.
Objects are ordered key-value lists, matching Python 3.7+ dict insertion
order, which the translator relies on for field ordering. -/
inductive Json where
  | null : Json
  | bool : Bool → Json
  | num : Int → Json
  | str : String → Json
  | arr : List Json → Json
  | obj : List (String × Json) → Json
deriving Repr

/-- Raw key lookup in an object: `some v` even when `v` is `null`.
Models Python's `k in d` containment together with `d[k]`. -/
def Json.lookup : Json → String → Option Json
  | .obj kvs, k => List.lookup k kvs
  | _, _ => none

/-- Python's `d.get(k)`: returns `None` both when the key is absent and when
the stored value is `None`; callers cannot tell the two apart, so we collapse
a stored `null` to `none`. -/
def Json.get (j : Json) (k : String) : Option Json :=
  match j.lookup k with
  | some Json.null => none
  | r => r

/-- Python dict assignment `d[k] = v`: overwrite in place (keeping the key's
position) when present, append at the end when absent. -/
def insertKV (kvs : List (String × Json)) (k : String) (v : Json) : List (String × Json) :=
  if kvs.any (fun p => p.1 == k) then
    kvs.map (fun p => if p.1 == k then (k, v) else p)
  else kvs ++ [(k, v)]

/-- `d[k] = v` on a JSON object. -/
def Json.insert : Json → String → Json → Json
  | .obj kvs, k, v => .obj (insertKV kvs k v)
  | j, _, _ => j

/-- Python truthiness of a JSON value (`if x:`). -/
def truthy : Json → Bool
  | .null => false
  | .bool b => b
  | .num n => n != 0
  | .str s => s != ""
  | .arr xs => !xs.isEmpty
  | .obj kvs => !kvs.isEmpty

/-- Truthiness of an optional value, `None` being falsy. -/
def truthyO : Option Json → Bool
  | none => false
  | some j => truthy j

/-- The characters of the reference prefix `"#/definitions/"`. -/
def refPat : List Char := "#/definitions/".toList

/-- One pass of Python's `str.replace(pat, "")`: scan left to right, removing
each non-overlapping occurrence of the pattern.  The first argument bounds the
number of steps by the length of the text, which suffices because every step
consumes at least one character. -/
def stripChars : Nat → List Char → List Char
  | _, [] => []
  | 0, cs => cs
  | n+1, c :: cs =>
    if refPat.isPrefixOf (c :: cs) then stripChars n (List.drop refPat.length (c :: cs))
    else c :: stripChars n cs

/-- `ref.replace("#/definitions/", "")`. -/
def strip_ref_name (r : String) : String :=
  String.mk (stripChars r.toList.length r.toList)

/-- Rendering of the type token inside error messages (`f"...{t}..."`). -/
def tokenText : Option Json → String
  | none => "None"
  | some (Json.str s) => s
  | some _ => "?"

/-- `key not in required` (negated): membership of a field name in the
`required` list.  In well-formed schemas `required` is a list of strings. -/
def requiredContains (required : Json) (key : String) : Bool :=
  match required with
  | Json.arr xs => xs.any (fun j => match j with | Json.str s => s == key | _ => false)
  | _ => false

/-- The generic type substituted when a recursive definition is detected,
exactly as written in the source (the map object sits under a `"type"` key). -/
def cyclePlaceholder : Json :=
  Json.obj [("type", Json.obj [("type", Json.str "map"), ("keyType", Json.str "string"),
    ("valueType", Json.str "string"), ("valueContainsNull", Json.bool true)])]

/-- The resolution cache `classes_seen`: definition name to either the
sentinel string "in progress" or the finished spark type. -/
abbrev Cache := List (String × Json)

/-- A metadata dictionary. -/
abbrev Dict := List (String × Json)

/-- `get_definition(ref, schema)`: look the stripped name up in the schema's
`definitions` table, failing when absent (Python's `d is None` test also
fires when the stored value is `None`, which `Json.get` collapses). -/
def get_definition (ref : String) (schema : Json) : Except String Json :=
  let id := strip_ref_name ref
  match Json.get ((schema.get "definitions").getD (Json.obj [])) id with
  | none => .error ("Definition " ++ id ++ " does not exist")
  | some d => .ok d

/-- `subtype_fields[field["name"]].append(field)` on the defaultdict used by
the union merge: append to the group of that name, creating it at the end on
first occurrence. -/
def append_subtype_field (acc : List (String × List Json)) (name : String) (fld : Json) :
    List (String × List Json) :=
  if acc.any (fun p => p.1 == name) then
    acc.map (fun p => if p.1 == name then (p.1, p.2 ++ [fld]) else p)
  else acc ++ [(name, [fld])]

/-- The inner loop `for field in spark_type_fields: subtype_fields[...].append(...)`. -/
def append_subtype_fields : List (String × List Json) → List Json →
    Except String (List (String × List Json))
  | acc, [] => .ok acc
  | acc, fld :: rest =>
    match fld.lookup "name" with
    | some (Json.str n) => append_subtype_fields (append_subtype_field acc n fld) rest
    | _ => .error "field without name"

/-- The `for name, subfields in subtype_fields.items()` loop of the union
merge: keep the first-seen field of each name, with nullability the
conjunction over all occurrences when the name occurs in every alternative
and `true` otherwise, and stamp `parentClass` into its metadata. -/
def merge_subtype_fields (anyofLen : Nat) (p_class : Json) :
    List (String × List Json) → Except String (List Json)
  | [] => .ok []
  | (_, subfields) :: rest =>
    match subfields with
    | [] => .error "empty subfield group"
    | first_field :: _ =>
      let nullable :=
        if subfields.length == anyofLen then
          subfields.all (fun fld => truthyO (fld.lookup "nullable"))
        else true
      let ff1 := first_field.insert "nullable" (Json.bool nullable)
      let md := (ff1.get "metadata").getD (Json.obj [])
      let ff2 := ff1.insert "metadata" (md.insert "parentClass" p_class)
      match merge_subtype_fields anyofLen p_class rest with
      | .error e => .error e
      | .ok us => .ok (ff2 :: us)

mutual

/-- `get_type_of_definition(ref, schema)`: resolve a `$ref` body, an enum to
its primitive spark type, anything else to a struct via `get_fields`. -/
def get_type_of_definition (schema : Json) : Nat → String → Cache →
    Except String (Json × Cache)
  | 0, _, _ => .error "recursion limit"
  | fuel+1, ref, seen =>
    match get_definition ref schema with
    | .error e => .error e
    | .ok d =>
      if (d.lookup "enum").isSome then
        match d.get "type" with
        | some (Json.str "string") => .ok (Json.str "string", seen)
        | some (Json.str "number") => .ok (Json.str "double", seen)
        | some (Json.str "integer") => .ok (Json.str "long", seen)
        | et => .error ("Unknown enum type: " ++ tokenText et)
      else
        match get_fields schema fuel d seen with
        | .error e => .error e
        | .ok (fs, seen1) =>
          .ok (Json.obj [("type", Json.str "struct"), ("fields", Json.arr fs)], seen1)

/-- `get_type(value)`: map one field descriptor to `(spark_type, metadata)`,
threading the `classes_seen` cache. -/
def get_type (schema : Json) : Nat → Json → Cache →
    Except String (Json × Dict × Cache)
  | 0, _, _ => .error "recursion limit"
  | fuel+1, value, seen =>
    let t0 := value.get "type"
    let t : Option Json :=
      if !truthyO t0 then
        (if truthyO (value.get "anyOf") then some (Json.str "list") else none)
      else t0
    let f := value.get "format"
    let a := value.get "additionalProperties"
    let metadata : Dict :=
      if (value.lookup "default").isSome then
        [("default", (value.get "default").getD Json.null)]
      else []
    match value.get "$ref" with
    | some (Json.str r) =>
      let class_name := strip_ref_name r
      match List.lookup class_name seen with
      | none =>
        let seen1 := insertKV seen class_name (Json.str "in progress")
        match get_type_of_definition schema fuel r seen1 with
        | .error e => .error e
        | .ok (spark_type, seen2) =>
          .ok (spark_type, metadata, insertKV seen2 class_name spark_type)
      | some (Json.str "in progress") =>
        .ok (cyclePlaceholder, metadata, insertKV seen class_name cyclePlaceholder)
      | some cached => .ok (cached, metadata, seen)
    | some _ => .error "invalid $ref"
    | none =>
      match t with
      | some (Json.str "array") =>
        let items := (value.get "items").getD Json.null
        match get_type schema fuel items seen with
        | .error e => .error e
        | .ok (tn, metadata2, seen1) =>
          .ok (Json.obj [("type", Json.str "array"), ("elementType", tn),
            ("containsNull", Json.bool true)], metadata2, seen1)
      | some (Json.str "string") =>
        match f with
        | some (Json.str "date-time") => .ok (Json.str "timestamp", metadata, seen)
        | some (Json.str "date") => .ok (Json.str "date", metadata, seen)
        | some (Json.str "uuid") =>
          .ok (Json.str "string", insertKV metadata "logicalType" (Json.str "uuid"), seen)
        | _ => .ok (Json.str "string", metadata, seen)
      | some (Json.str "number") => .ok (Json.str "double", metadata, seen)
      | some (Json.str "integer") => .ok (Json.str "long", metadata, seen)
      | some (Json.str "boolean") => .ok (Json.str "boolean", metadata, seen)
      | some (Json.str "list") => .ok (Json.str "string", metadata, seen)
      | some (Json.str "object") =>
        match a with
        | none =>
          .ok (Json.obj [("keyType", Json.str "string"), ("type", Json.str "map"),
            ("valueContainsNull", Json.bool true), ("valueType", Json.str "string")],
            metadata, seen)
        | some av =>
          match get_type schema fuel av seen with
          | .error e => .error e
          | .ok (value_type, _, seen1) =>
            .ok (Json.obj [("keyType", Json.str "string"), ("type", Json.str "map"),
              ("valueContainsNull", Json.bool true), ("valueType", value_type)],
              metadata, seen1)
      | tOther =>
        .error ("Type '" ++ tokenText tOther ++
          "' not support yet, please report this at https://github.com/godatadriven/pydantic-avro/issues")

/-- The per-property body of the `get_fields` loop (source lines 140-178):
dispatch a union field through the merge logic, a plain field through
`get_type`. -/
def field_type (schema : Json) : Nat → Json → Json → Cache →
    Except String (Json × Dict × Cache)
  | 0, _, _, _ => .error "recursion limit"
  | fuel+1, p_class, value, seen =>
    if truthyO (value.get "anyOf") then
      match (value.get "anyOf").getD Json.null with
      | Json.arr (first_value :: restAlts) =>
        match get_type schema fuel first_value seen with
        | .error e => .error e
        | .ok (first_subtype, first_metadata, seen1) =>
          match first_subtype with
          | Json.str "struct" =>
            match collect_subtype_fields schema fuel (first_value :: restAlts) seen1 [] with
            | .error e => .error e
            | .ok (spark_type, metadata, seen2, subtype_fields) =>
              match merge_subtype_fields (first_value :: restAlts).length p_class
                  subtype_fields with
              | .error e => .error e
              | .ok unique => .ok (spark_type.insert "fields" (Json.arr unique), metadata, seen2)
          | _ => .ok (first_subtype, first_metadata, seen1)
      | _ => .error "invalid anyOf"
    else
      get_type schema fuel value seen

/-- The `for v in anyof` loop of the union merge: map every alternative,
collect its fields by name, and return the last alternative's spark type and
metadata together with the grouped fields. -/
def collect_subtype_fields (schema : Json) : Nat → List Json → Cache →
    List (String × List Json) →
    Except String (Json × Dict × Cache × List (String × List Json))
  | 0, _, _, _ => .error "recursion limit"
  | _+1, [], _, _ => .error "empty anyOf"
  | fuel+1, v :: vs, seen, acc =>
    match get_type schema fuel v seen with
    | .error e => .error e
    | .ok (spark_type, metadata, seen1) =>
      match spark_type.get "fields" with
      | some (Json.arr spark_type_fields) =>
        match append_subtype_fields acc spark_type_fields with
        | .error e => .error e
        | .ok acc1 =>
          match vs with
          | [] => .ok (spark_type, metadata, seen1, acc1)
          | _ :: _ => collect_subtype_fields schema fuel vs seen1 acc1
      | _ => .error "union member is not a struct"

/-- `get_fields(s)`: read `required`, `title` and `properties` off the node
and run the field loop. -/
def get_fields (schema : Json) : Nat → Json → Cache →
    Except String (List Json × Cache)
  | 0, _, _ => .error "recursion limit"
  | fuel+1, s, seen =>
    let required := (s.get "required").getD (Json.arr [])
    let p_class := (s.get "title").getD Json.null
    match (s.get "properties").getD (Json.obj []) with
    | Json.obj props => get_fields_loop schema fuel required p_class props seen
    | _ => .error "invalid properties"

/-- The `for key, value in s.get("properties", {}).items()` loop: build one
struct field per property, in declaration order. -/
def get_fields_loop (schema : Json) : Nat → Json → Json → List (String × Json) → Cache →
    Except String (List Json × Cache)
  | 0, _, _, _, _ => .error "recursion limit"
  | _+1, _, _, [], seen => .ok ([], seen)
  | fuel+1, required, p_class, (key, value) :: rest, seen =>
    match field_type schema fuel p_class value seen with
    | .error e => .error e
    | .ok (spark_type, metadata, seen1) =>
      let metadata1 := insertKV metadata "parentClass" p_class
      let nullable := !(List.lookup "default" metadata1).isSome && !requiredContains required key
      let struct_field := Json.obj [("name", Json.str key), ("nullable", Json.bool nullable),
        ("metadata", Json.obj metadata1), ("type", spark_type)]
      match get_fields_loop schema fuel required p_class rest seen1 with
      | .error e => .error e
      | .ok (fs, seen2) => .ok (struct_field :: fs, seen2)

end

/-- `_spark_schema(schema)`: translate the whole document, starting from a
fresh `classes_seen` cache. -/
def _spark_schema (fuel : Nat) (schema : Json) : Except String Json :=
  match get_fields schema fuel schema [] with
  | .error e => .error e
  | .ok (fields, _) => .ok (Json.obj [("fields", Json.arr fields), ("type", Json.str "struct")])

/-- The names of a node's declared properties, in declaration order. -/
def propKeys (s : Json) : List String :=
  match (s.get "properties").getD (Json.obj []) with
  | Json.obj kvs => kvs.map (fun p => p.1)
  | _ => []

/-- The end-to-end example schema:
`properties: {"id": {"type":"integer"}, "name": {"type":"string"}}, required: ["id"]`. -/
def exampleSchema : Json :=
  Json.obj [("title", Json.str "Root"),
    ("properties", Json.obj [("id", Json.obj [("type", Json.str "integer")]),
      ("name", Json.obj [("type", Json.str "string")])]),
    ("required", Json.arr [Json.str "id"])]

/-- The fields the translator produces for `exampleSchema`. -/
def exampleFields : List Json :=
  [Json.obj [("name", Json.str "id"), ("nullable", Json.bool false),
    ("metadata", Json.obj [("parentClass", Json.str "Root")]), ("type", Json.str "long")],
   Json.obj [("name", Json.str "name"), ("nullable", Json.bool true),
    ("metadata", Json.obj [("parentClass", Json.str "Root")]), ("type", Json.str "string")]]

/-- Schema whose property "u" is a union (`anyOf`) of two struct definitions
"A" and "B".  "A" has a single required field "a"; "B" has an optional field
"a" and an additional optional field "b". -/
def c1Schema : Json :=
  Json.obj [("title", Json.str "Root"),
    ("properties", Json.obj [("u", Json.obj [("anyOf",
      Json.arr [Json.obj [("$ref", Json.str "#/definitions/A")],
                Json.obj [("$ref", Json.str "#/definitions/B")]])])]),
    ("definitions", Json.obj [
      ("A", Json.obj [("title", Json.str "A"),
        ("properties", Json.obj [("a", Json.obj [("type", Json.str "string")])]),
        ("required", Json.arr [Json.str "a"])]),
      ("B", Json.obj [("title", Json.str "B"),
        ("properties", Json.obj [("a", Json.obj [("type", Json.str "string")]),
          ("b", Json.obj [("type", Json.str "integer")])])])])]

/-- What the translator actually produces for `c1Schema`: the union field
"u" receives the first alternative's struct verbatim ("A" only, no merged
field "b", no nullability adjustment). -/
def c1Output : Json :=
  Json.obj [("fields", Json.arr
    [Json.obj [("name", Json.str "u"), ("nullable", Json.bool true),
      ("metadata", Json.obj [("parentClass", Json.str "Root")]),
      ("type", Json.obj [("type", Json.str "struct"), ("fields", Json.arr
        [Json.obj [("name", Json.str "a"), ("nullable", Json.bool false),
          ("metadata", Json.obj [("parentClass", Json.str "A")]),
          ("type", Json.str "string")]])])]]),
   ("type", Json.str "struct")]

/-- Schema with a self-referential definition "Node" whose field "next"
refers back to "Node". -/
def c2Schema : Json :=
  Json.obj [("title", Json.str "Root"),
    ("properties", Json.obj [("node", Json.obj [("$ref", Json.str "#/definitions/Node")])]),
    ("definitions", Json.obj [("Node", Json.obj [("title", Json.str "Node"),
      ("properties", Json.obj [("next", Json.obj [("$ref", Json.str "#/definitions/Node")])])])])]

/-- What the translator actually produces for `c2Schema`: the "next" field's
type is `cyclePlaceholder`, i.e. the map object wrapped in an extra
`{"type": ...}` layer. -/
def c2Output : Json :=
  Json.obj [("fields", Json.arr
    [Json.obj [("name", Json.str "node"), ("nullable", Json.bool true),
      ("metadata", Json.obj [("parentClass", Json.str "Root")]),
      ("type", Json.obj [("type", Json.str "struct"), ("fields", Json.arr
        [Json.obj [("name", Json.str "next"), ("nullable", Json.bool true),
          ("metadata", Json.obj [("parentClass", Json.str "Node")]),
          ("type", cyclePlaceholder)]])])]]),
   ("type", Json.str "struct")]

/-- The bare map type the claim expects for the "next" field. -/
def plainMapPlaceholder : Json :=
  Json.obj [("type", Json.str "map"), ("keyType", Json.str "string"),
    ("valueType", Json.str "string"), ("valueContainsNull", Json.bool true)]

/-- The output the claim predicts for `c2Schema`: identical to `c2Output`
except that the "next" field's type is the bare map type. -/
def c2ClaimOutput : Json :=
  Json.obj [("fields", Json.arr
    [Json.obj [("name", Json.str "node"), ("nullable", Json.bool true),
      ("metadata", Json.obj [("parentClass", Json.str "Root")]),
      ("type", Json.obj [("type", Json.str "struct"), ("fields", Json.arr
        [Json.obj [("name", Json.str "next"), ("nullable", Json.bool true),
          ("metadata", Json.obj [("parentClass", Json.str "Node")]),
          ("type", plainMapPlaceholder)]])])]]),
   ("type", Json.str "struct")]

/-- Schema whose property "x" is declared with `anyOf` and carries a
`default` on the property descriptor itself. -/
def c4Schema : Json :=
  Json.obj [("title", Json.str "Root"),
    ("properties", Json.obj [("x", Json.obj [
      ("anyOf", Json.arr [Json.obj [("type", Json.str "string")]]),
      ("default", Json.str "d")])])]

/-- What the translator produces for `c4Schema`: field "x" is nullable even
though its descriptor has a default, because the metadata is taken from the
first `anyOf` alternative, which has no default. -/
def c4Output : Json :=
  Json.obj [("fields", Json.arr
    [Json.obj [("name", Json.str "x"), ("nullable", Json.bool true),
      ("metadata", Json.obj [("parentClass", Json.str "Root")]),
      ("type", Json.str "string")]]),
   ("type", Json.str "struct")]

/-- Schema whose single property refers to a definition that is absent from
the definitions table. -/
def c6Schema : Json :=
  Json.obj [("title", Json.str "Root"),
    ("properties", Json.obj [("m", Json.obj [("$ref", Json.str "#/definitions/Missing")])])]

/-- A bare reference descriptor to the recursive "Node" definition. -/
def c7RefNode : Json := Json.obj [("$ref", Json.str "#/definitions/Node")]

/-- Schema with two sibling properties both referring to the self-referential
definition "Node". -/
def c7Schema : Json :=
  Json.obj [("title", Json.str "Root"),
    ("properties", Json.obj [
      ("a", Json.obj [("$ref", Json.str "#/definitions/Node")]),
      ("b", Json.obj [("$ref", Json.str "#/definitions/Node")])]),
    ("definitions", Json.obj [("Node", Json.obj [("title", Json.str "Node"),
      ("properties", Json.obj [("next", Json.obj [("$ref", Json.str "#/definitions/Node")])])])])]

/-- The fully resolved struct type of "Node" (its recursive "next" field
carries the cycle placeholder). -/
def c7NodeStruct : Json :=
  Json.obj [("type", Json.str "struct"), ("fields", Json.arr
    [Json.obj [("name", Json.str "next"), ("nullable", Json.bool true),
      ("metadata", Json.obj [("parentClass", Json.str "Node")]),
      ("type", cyclePlaceholder)]])]

/-- Looking a key up after a cons: match on the head's key. -/
theorem lookup_cons_kv (a k : String) (v : Json) (es : List (String × Json)) :
    List.lookup a ((k, v) :: es) = if a = k then some v else List.lookup a es := by
  by_cases h : a = k
  · simp [List.lookup, h]
  · have hb : (a == k) = false := beq_eq_false_iff_ne.mpr h
    simp [List.lookup, hb, h]

/-- Overwriting an existing key makes it the value found by lookup. -/
theorem lookup_map_overwrite_self (k : String) (v : Json) :
    ∀ m : List (String × Json), (m.any fun p => p.1 == k) = true →
      List.lookup k (m.map fun p => if p.1 == k then (k, v) else p) = some v := by
  intro m
  induction m with
  | nil => simp
  | cons a as ih =>
    obtain ⟨a1, a2⟩ := a
    intro h
    by_cases hak : a1 = k
    · rw [List.map_cons, if_pos (by simp [hak]), lookup_cons_kv, if_pos rfl]
    · have h' : (as.any fun p => p.1 == k) = true := by
        simp only [List.any_cons, Bool.or_eq_true] at h
        exact h.resolve_left (by simp [hak])
      rw [List.map_cons, if_neg (by simp [hak]), lookup_cons_kv,
        if_neg (fun e => hak e.symm)]
      exact ih h'

/-- Appending a fresh key makes it the value found by lookup. -/
theorem lookup_append_self (k : String) (v : Json) :
    ∀ m : List (String × Json), (∀ p ∈ m, ¬ p.1 = k) →
      List.lookup k (m ++ [(k, v)]) = some v := by
  intro m
  induction m with
  | nil => simp [lookup_cons_kv]
  | cons a as ih =>
    obtain ⟨a1, a2⟩ := a
    intro h
    have hka : ¬ k = a1 := fun e => (h (a1, a2) (by simp)) e.symm
    rw [List.cons_append, lookup_cons_kv, if_neg hka]
    exact ih (fun p hp => h p (by simp [hp]))

/-- After `insertKV m k v`, looking up `k` finds `v`. -/
theorem lookup_insertKV_self (m : List (String × Json)) (k : String) (v : Json) :
    List.lookup k (insertKV m k v) = some v := by
  unfold insertKV
  split
  · rename_i h
    exact lookup_map_overwrite_self k v m h
  · rename_i h
    refine lookup_append_self k v m ?_
    intro p hp hpk
    exact h (by simp only [List.any_eq_true]; exact ⟨p, hp, by simp [hpk]⟩)

/-- Overwriting key `k` does not disturb lookups of other keys. -/
theorem lookup_map_overwrite_ne (k kk : String) (v : Json) (h : kk ≠ k) :
    ∀ m : List (String × Json),
      List.lookup kk (m.map fun p => if p.1 == k then (k, v) else p) = List.lookup kk m := by
  intro m
  induction m with
  | nil => simp
  | cons a as ih =>
    obtain ⟨a1, a2⟩ := a
    by_cases hak : a1 = k
    · rw [List.map_cons, if_pos (by simp [hak]), lookup_cons_kv, if_neg h,
        lookup_cons_kv, if_neg (fun e => h (e.trans hak))]
      exact ih
    · rw [List.map_cons, if_neg (by simp [hak]), lookup_cons_kv, lookup_cons_kv, ih]

/-- Appending key `k` does not disturb lookups of other keys. -/
theorem lookup_append_ne (k kk : String) (v : Json) (h : kk ≠ k) :
    ∀ m : List (String × Json),
      List.lookup kk (m ++ [(k, v)]) = List.lookup kk m := by
  intro m
  induction m with
  | nil =>
    rw [List.nil_append, lookup_cons_kv, if_neg h]
  | cons a as ih =>
    obtain ⟨a1, a2⟩ := a
    rw [List.cons_append, lookup_cons_kv, lookup_cons_kv, ih]

/-- `insertKV m k v` does not disturb lookups of keys other than `k`. -/
theorem lookup_insertKV_ne (m : List (String × Json)) (k kk : String) (v : Json)
    (h : kk ≠ k) : List.lookup kk (insertKV m k v) = List.lookup kk m := by
  unfold insertKV
  split
  · exact lookup_map_overwrite_ne k kk v h m
  · exact lookup_append_ne k kk v h m

/-- The field loop emits exactly one field per property, named after it, in
declaration order. -/
theorem get_fields_loop_names (schema : Json) :
    ∀ (props : List (String × Json)) (fuel : Nat) (required p_class : Json) (seen : Cache)
      (fields : List Json) (seen2 : Cache),
      get_fields_loop schema fuel required p_class props seen = .ok (fields, seen2) →
      fields.map (fun f => f.lookup "name") = props.map (fun p => some (Json.str p.1)) := by
  intro props
  induction props with
  | nil =>
    intro fuel required p_class seen fields seen2 h
    cases fuel with
    | zero => simp [get_fields_loop] at h
    | succ n =>
      simp only [get_fields_loop, Except.ok.injEq, Prod.mk.injEq] at h
      simp [← h.1]
  | cons kv rest ih =>
    obtain ⟨key, value⟩ := kv
    intro fuel required p_class seen fields seen2 h
    cases fuel with
    | zero => simp [get_fields_loop] at h
    | succ n =>
      simp only [get_fields_loop] at h
      cases hft : field_type schema n p_class value seen with
      | error e => rw [hft] at h; simp at h
      | ok x =>
        obtain ⟨st, md, seen1⟩ := x
        rw [hft] at h
        simp only at h
        cases hloop : get_fields_loop schema n required p_class rest seen1 with
        | error e => rw [hloop] at h; simp at h
        | ok y =>
          obtain ⟨fs, sn⟩ := y
          rw [hloop] at h
          simp only [Except.ok.injEq, Prod.mk.injEq] at h
          obtain ⟨hfields, -⟩ := h
          subst hfields
          simp only [List.map_cons, List.cons.injEq]
          exact ⟨rfl, ih n required p_class seen1 fs sn hloop⟩

/-- Every field the loop emits carries a `parentClass` entry set to the
`p_class` passed in. -/
theorem get_fields_loop_parent (schema : Json) :
    ∀ (props : List (String × Json)) (fuel : Nat) (required p_class : Json) (seen : Cache)
      (fields : List Json) (seen2 : Cache),
      get_fields_loop schema fuel required p_class props seen = .ok (fields, seen2) →
      ∀ f ∈ fields, (f.lookup "metadata").bind (fun m => m.lookup "parentClass") =
        some p_class := by
  intro props
  induction props with
  | nil =>
    intro fuel required p_class seen fields seen2 h
    cases fuel with
    | zero => simp [get_fields_loop] at h
    | succ n =>
      simp only [get_fields_loop, Except.ok.injEq, Prod.mk.injEq] at h
      intro f hf
      rw [← h.1] at hf
      simp at hf
  | cons kv rest ih =>
    obtain ⟨key, value⟩ := kv
    intro fuel required p_class seen fields seen2 h
    cases fuel with
    | zero => simp [get_fields_loop] at h
    | succ n =>
      simp only [get_fields_loop] at h
      cases hft : field_type schema n p_class value seen with
      | error e => rw [hft] at h; simp at h
      | ok x =>
        obtain ⟨st, md, seen1⟩ := x
        rw [hft] at h
        simp only at h
        cases hloop : get_fields_loop schema n required p_class rest seen1 with
        | error e => rw [hloop] at h; simp at h
        | ok y =>
          obtain ⟨fs, sn⟩ := y
          rw [hloop] at h
          simp only [Except.ok.injEq, Prod.mk.injEq] at h
          obtain ⟨hfields, -⟩ := h
          subst hfields
          intro f hf
          rcases List.mem_cons.mp hf with hf1 | hf2
          · subst hf1
            show (some (Json.obj (insertKV md "parentClass" p_class))).bind
              (fun m => m.lookup "parentClass") = some p_class
            simpa [Json.lookup] using lookup_insertKV_self md "parentClass" p_class
          · exact ih n required p_class seen1 fs sn hloop f hf2

/-- `get_type` keeps a `default` found on the descriptor in the returned
metadata, except in the array branch (where the metadata is replaced by the
recursive result for `items`), which the hypothesis excludes. -/
theorem get_type_default_preserved (schema : Json) (fuel : Nat) (value : Json) (seen : Cache)
    (st : Json) (md : Dict) (seen2 : Cache)
    (hdef : (value.lookup "default").isSome = true)
    (hty : value.get "type" ≠ some (Json.str "array"))
    (h : get_type schema fuel value seen = .ok (st, md, seen2)) :
    (List.lookup "default" md).isSome = true := by
  cases fuel with
  | zero => simp [get_type] at h
  | succ n =>
    simp only [get_type, hdef, if_true] at h
    split at h
    · split at h
      · split at h
        · simp at h
        · simp only [Except.ok.injEq, Prod.mk.injEq] at h
          rw [← h.2.1]
          rfl
      · simp only [Except.ok.injEq, Prod.mk.injEq] at h
        rw [← h.2.1]
        rfl
      · simp only [Except.ok.injEq, Prod.mk.injEq] at h
        rw [← h.2.1]
        rfl
    · simp at h
    · split at h
      · rename_i heq
        split at heq
        · split at heq <;> simp at heq
        · exact absurd heq hty
      · split at h <;>
          (simp only [Except.ok.injEq, Prod.mk.injEq] at h; rw [← h.2.1]; rfl)
      · simp only [Except.ok.injEq, Prod.mk.injEq] at h
        rw [← h.2.1]
        rfl
      · simp only [Except.ok.injEq, Prod.mk.injEq] at h
        rw [← h.2.1]
        rfl
      · simp only [Except.ok.injEq, Prod.mk.injEq] at h
        rw [← h.2.1]
        rfl
      · simp only [Except.ok.injEq, Prod.mk.injEq] at h
        rw [← h.2.1]
        rfl
      · split at h
        · simp only [Except.ok.injEq, Prod.mk.injEq] at h
          rw [← h.2.1]
          rfl
        · split at h
          · simp at h
          · simp only [Except.ok.injEq, Prod.mk.injEq] at h
            rw [← h.2.1]
            rfl
      · simp at h

/-- The per-property dispatch keeps a `default` in the metadata when the
descriptor has no `anyOf` and is not an array descriptor. -/
theorem field_type_default_preserved (schema : Json) (fuel : Nat) (p_class value : Json)
    (seen : Cache) (st : Json) (md : Dict) (seen2 : Cache)
    (hdef : (value.lookup "default").isSome = true)
    (hanyof : value.lookup "anyOf" = none)
    (hty : value.get "type" ≠ some (Json.str "array"))
    (h : field_type schema fuel p_class value seen = .ok (st, md, seen2)) :
    (List.lookup "default" md).isSome = true := by
  cases fuel with
  | zero => simp [field_type] at h
  | succ n =>
    have hga : value.get "anyOf" = none := by simp [Json.get, hanyof]
    simp only [field_type, hga, truthyO, Bool.false_eq_true, if_false] at h
    exact get_type_default_preserved schema n value seen st md seen2 hdef hty h

/-- C1: the spec claims that a property whose `anyOf` list's first
alternative resolves to a struct yields a single merged struct (fields merged
by name across alternatives, shared fields with AND-ed nullability, partial
fields forced nullable).  In the code the `match first_subtype: case
"struct"` arm compares the resolved type against the literal string
"struct", but a resolved struct is a dictionary `{"type": "struct", ...}`,
never that string, so the merge arm is unreachable and the union field
receives the first alternative's struct verbatim: here `c1Schema`'s field
"u" gets definition A's struct only — field "a" keeps A's non-nullability
(instead of the AND), and B's field "b" is absent (instead of present and
nullable). -/
theorem c1_union_of_structs_not_merged : _spark_schema 20 c1Schema = .ok c1Output := rfl

/-- C2: translating the self-referential "Node" schema terminates, but the
"next" field's resolved type is the `cyclePlaceholder` of the source, which
wraps the map object in an extra `{"type": ...}` layer: the field's type is
`{"type": {"type": "map", ...}}`, not the bare
`{"type":"map","keyType":"string","valueType":"string","valueContainsNull":true}`
the claim states.  The second conjunct exhibits the wrapper relationship. -/
theorem c2_recursive_placeholder_wrapped :
    _spark_schema 20 c2Schema = .ok c2Output ∧
    cyclePlaceholder = Json.obj [("type", plainMapPlaceholder)] ∧
    c2Output ≠ c2ClaimOutput :=
  ⟨rfl, rfl, by simp [c2Output, c2ClaimOutput, cyclePlaceholder, plainMapPlaceholder]⟩

/-- C3 counterexample: a descriptor with type "string" and time-of-day
format `"time"` does not raise the unsupported-type error; the `t ==
"string"` arm catches it first and it silently maps to "string" with empty
metadata. -/
theorem c3_time_format_counterexample :
    get_type (Json.obj []) 5
      (Json.obj [("type", Json.str "string"), ("format", Json.str "time")]) [] =
      .ok (Json.str "string", [], []) := rfl

/-- C3 amended: a descriptor whose type token has no mapping rule fails with
the unsupported-type error naming the token; but type "string" with a
time-of-day format is not such a case — the format is ignored and the
resolved type is plain "string". -/
theorem c3_unsupported_type_amended :
    (∀ (fuel : Nat) (value schema : Json) (seen : Cache) (tk : String),
      value.get "$ref" = none →
      value.get "type" = some (Json.str tk) →
      tk ≠ "" →
      tk ∉ ["array", "string", "number", "integer", "boolean", "list", "object"] →
      get_type schema (fuel+1) value seen =
        .error ("Type '" ++ tk ++
          "' not support yet, please report this at https://github.com/godatadriven/pydantic-avro/issues")) ∧
    (∀ (fuel : Nat) (value schema : Json) (seen : Cache),
      value.get "$ref" = none →
      value.get "type" = some (Json.str "string") →
      value.get "format" = some (Json.str "time") →
      Except.map (fun x => x.1) (get_type schema (fuel+1) value seen) =
        .ok (Json.str "string")) := by
  constructor
  · intro fuel value schema seen tk href ht hne hnk
    simp only [List.mem_cons, not_or] at hnk
    obtain ⟨h1, h2, h3, h4, h5, h6, h7, -⟩ := hnk
    simp [get_type, href, ht, truthyO, truthy, hne, h1, h2, h3, h4, h5, h6, h7, tokenText]
  · intro fuel value schema seen href ht hf
    simp [get_type, href, ht, hf, truthyO, truthy, Except.map]

/-- C3 amended, witness: the unknown token "foo" raises the error naming it,
and string + time-of-day maps to plain "string". -/
theorem c3_unsupported_type_amended_witness :
    get_type (Json.obj []) 5 (Json.obj [("type", Json.str "foo")]) [] =
      .error ("Type 'foo' not support yet, please report this at https://github.com/godatadriven/pydantic-avro/issues") ∧
    Except.map (fun x => x.1) (get_type (Json.obj []) 5
      (Json.obj [("type", Json.str "string"), ("format", Json.str "time")]) []) =
      .ok (Json.str "string") :=
  ⟨c3_unsupported_type_amended.1 4 (Json.obj [("type", Json.str "foo")]) (Json.obj []) []
      "foo" rfl rfl (by decide) (by decide),
   c3_unsupported_type_amended.2 4
      (Json.obj [("type", Json.str "string"), ("format", Json.str "time")]) (Json.obj []) []
      rfl rfl rfl⟩

/-- C4 counterexample: property "x" is declared with `anyOf` and a
`default`, yet the produced field is nullable, because the metadata (and
with it the default) is taken from the first `anyOf` alternative rather
than the property descriptor. -/
theorem c4_default_with_anyof_counterexample :
    _spark_schema 20 c4Schema = .ok c4Output := rfl

/-- C4 amended: a property descriptor that carries a `default`, has no
`anyOf`, and is not an array descriptor always produces a field with
`nullable = false`, regardless of the `required` set.  (For array
descriptors the metadata — including the default — is replaced by the
`items` metadata, and for `anyOf` fields it comes from the first
alternative, so the descriptor's own default does not force
non-nullability there.) -/
theorem c4_default_nonnullable_amended (schema : Json) (fuel : Nat) (required p_class : Json)
    (key : String) (value : Json) (rest : List (String × Json)) (seen : Cache)
    (fields : List Json) (seen2 : Cache)
    (hdef : (value.lookup "default").isSome = true)
    (hanyof : value.lookup "anyOf" = none)
    (hty : value.get "type" ≠ some (Json.str "array"))
    (h : get_fields_loop schema (fuel+1) required p_class ((key, value) :: rest) seen =
      .ok (fields, seen2)) :
    fields.head?.bind (fun f => f.lookup "nullable") = some (Json.bool false) := by
  simp only [get_fields_loop] at h
  cases hft : field_type schema fuel p_class value seen with
  | error e => rw [hft] at h; simp at h
  | ok x =>
    obtain ⟨st, md, seen1⟩ := x
    have hmd := field_type_default_preserved schema fuel p_class value seen st md seen1
      hdef hanyof hty hft
    rw [hft] at h
    simp only at h
    cases hloop : get_fields_loop schema fuel required p_class rest seen1 with
    | error e => rw [hloop] at h; simp at h
    | ok y =>
      obtain ⟨fs, sn⟩ := y
      rw [hloop] at h
      simp only [Except.ok.injEq, Prod.mk.injEq] at h
      obtain ⟨hfields, -⟩ := h
      have hnul : (!(List.lookup "default" (insertKV md "parentClass" p_class)).isSome &&
          !requiredContains required key) = false := by
        rw [lookup_insertKV_ne md "parentClass" "default" p_class (by decide), hmd]
        rfl
      rw [← hfields]
      simp only [List.head?_cons, Option.bind_some]
      rw [hnul]
      rfl

/-- C4 amended, witness: a plain string property with a default is
non-nullable even though it is not in the required set. -/
theorem c4_default_nonnullable_amended_witness :
    ([Json.obj [("name", Json.str "x"), ("nullable", Json.bool false),
      ("metadata", Json.obj [("default", Json.str "d"), ("parentClass", Json.null)]),
      ("type", Json.str "string")]] : List Json).head?.bind
        (fun f => f.lookup "nullable") = some (Json.bool false) :=
  c4_default_nonnullable_amended (Json.obj []) 4 (Json.arr []) Json.null "x"
    (Json.obj [("type", Json.str "string"), ("default", Json.str "d")]) [] []
    [Json.obj [("name", Json.str "x"), ("nullable", Json.bool false),
      ("metadata", Json.obj [("default", Json.str "d"), ("parentClass", Json.null)]),
      ("type", Json.str "string")]] []
    rfl rfl (by simp [Json.get, Json.lookup, List.lookup]) rfl

/-- C5: the primitive mapping table.  For a descriptor without `$ref`, the
resolved type is determined by (type, format): string+date-time →
timestamp, string+date → date, string+uuid → string with metadata
`logicalType: uuid`, string without format → string, number → double,
integer → long, boolean → boolean. -/
theorem c5_primitive_type_table (fuel : Nat) (schema value : Json) (seen : Cache)
    (href : value.get "$ref" = none) :
    (value.get "type" = some (Json.str "string") →
      ((value.get "format" = some (Json.str "date-time") →
          Except.map (fun x => x.1) (get_type schema (fuel+1) value seen) =
            .ok (Json.str "timestamp")) ∧
       (value.get "format" = some (Json.str "date") →
          Except.map (fun x => x.1) (get_type schema (fuel+1) value seen) =
            .ok (Json.str "date")) ∧
       (value.get "format" = some (Json.str "uuid") →
          Except.map (fun x => x.1) (get_type schema (fuel+1) value seen) =
            .ok (Json.str "string") ∧
          Except.map (fun x => List.lookup "logicalType" x.2.1)
            (get_type schema (fuel+1) value seen) = .ok (some (Json.str "uuid"))) ∧
       (value.get "format" = none →
          Except.map (fun x => x.1) (get_type schema (fuel+1) value seen) =
            .ok (Json.str "string")))) ∧
    (value.get "type" = some (Json.str "number") →
      Except.map (fun x => x.1) (get_type schema (fuel+1) value seen) =
        .ok (Json.str "double")) ∧
    (value.get "type" = some (Json.str "integer") →
      Except.map (fun x => x.1) (get_type schema (fuel+1) value seen) =
        .ok (Json.str "long")) ∧
    (value.get "type" = some (Json.str "boolean") →
      Except.map (fun x => x.1) (get_type schema (fuel+1) value seen) =
        .ok (Json.str "boolean")) := by
  refine ⟨fun ht => ⟨fun hf => ?_, fun hf => ?_, fun hf => ⟨?_, ?_⟩, fun hf => ?_⟩,
    fun ht => ?_, fun ht => ?_, fun ht => ?_⟩
  all_goals
    simp [get_type, href, truthyO, truthy, Except.map, lookup_insertKV_self, *]

/-- C5 witness: string+uuid maps to "string" with `logicalType: uuid`, and
integer maps to "long". -/
theorem c5_primitive_type_table_witness :
    (Except.map (fun x => x.1) (get_type (Json.obj []) 3
      (Json.obj [("type", Json.str "string"), ("format", Json.str "uuid")]) []) =
      .ok (Json.str "string") ∧
     Except.map (fun x => List.lookup "logicalType" x.2.1) (get_type (Json.obj []) 3
      (Json.obj [("type", Json.str "string"), ("format", Json.str "uuid")]) []) =
      .ok (some (Json.str "uuid"))) ∧
    Except.map (fun x => x.1) (get_type (Json.obj []) 3
      (Json.obj [("type", Json.str "integer")]) []) = .ok (Json.str "long") :=
  ⟨((c5_primitive_type_table 2 (Json.obj [])
      (Json.obj [("type", Json.str "string"), ("format", Json.str "uuid")]) [] rfl).1
      rfl).2.2.1 rfl,
   (c5_primitive_type_table 2 (Json.obj [])
      (Json.obj [("type", Json.str "integer")]) [] rfl).2.2.1 rfl⟩

/-- C6: a `$ref` to a name absent from the definitions table fails with the
missing-definition error naming the absent name (first conjunct); when the
translator resolves such a reference the error propagates unchanged out of
`get_type` (second conjunct); and end-to-end, translating a schema whose
property refers to the absent "Missing" yields exactly that error and no
output (third conjunct; `Except` produces no partial result by
construction). -/
theorem c6_missing_definition_error :
    (∀ (ref : String) (schema : Json),
      Json.get ((schema.get "definitions").getD (Json.obj [])) (strip_ref_name ref) = none →
      get_definition ref schema =
        .error ("Definition " ++ strip_ref_name ref ++ " does not exist")) ∧
    (∀ (fuel : Nat) (value schema : Json) (seen : Cache) (r e : String),
      value.get "$ref" = some (Json.str r) →
      List.lookup (strip_ref_name r) seen = none →
      get_definition r schema = .error e →
      get_type schema (fuel+2) value seen = .error e) ∧
    _spark_schema 20 c6Schema = .error "Definition Missing does not exist" := by
  refine ⟨fun ref schema h => ?_, fun fuel value schema seen r e href hseen hdef => ?_, rfl⟩
  · simp [get_definition, h]
  · simp [get_type, href, hseen, get_type_of_definition, hdef]

/-- C6 witness: the missing "Missing" reference errors in the resolver and
the error propagates out of `get_type`. -/
theorem c6_missing_definition_error_witness :
    get_definition "#/definitions/Missing" c6Schema =
      .error "Definition Missing does not exist" ∧
    get_type c6Schema 7 (Json.obj [("$ref", Json.str "#/definitions/Missing")]) [] =
      .error "Definition Missing does not exist" :=
  ⟨c6_missing_definition_error.1 "#/definitions/Missing" c6Schema rfl,
   c6_missing_definition_error.2.1 5 (Json.obj [("$ref", Json.str "#/definitions/Missing")])
      c6Schema [] "#/definitions/Missing" "Definition Missing does not exist" rfl rfl rfl⟩

/-- C7 counterexample: after the first sibling reference to the recursive
"Node" fully resolves, the cache holds the resolved struct (first conjunct),
and a subsequent reference within the same translation receives that
resolved struct — not the cycle placeholder (second conjunct); the two
differ (third conjunct). -/
theorem c7_subsequent_ref_gets_resolved_type :
    get_type c7Schema 10 c7RefNode [] = .ok (c7NodeStruct, [], [("Node", c7NodeStruct)]) ∧
    get_type c7Schema 10 c7RefNode [("Node", c7NodeStruct)] =
      .ok (c7NodeStruct, [], [("Node", c7NodeStruct)]) ∧
    c7NodeStruct ≠ cyclePlaceholder :=
  ⟨rfl, rfl, by simp [c7NodeStruct, cyclePlaceholder]⟩

/-- C7 amended: when a cycle is detected (the name is marked in-progress),
the placeholder is returned and recorded as the name's cache value, so
references encountered while the outer resolution is still in flight reuse
the placeholder (first conjunct); but when the outer resolution of the name
completes, the entry is overwritten with the fully resolved type, which is
what later references reuse (second conjunct). -/
theorem c7_cycle_cache_amended :
    (∀ (fuel : Nat) (value schema : Json) (seen : Cache) (r : String),
      value.get "$ref" = some (Json.str r) →
      List.lookup (strip_ref_name r) seen = some (Json.str "in progress") →
      Except.map (fun x => x.1) (get_type schema (fuel+1) value seen) =
        .ok cyclePlaceholder ∧
      Except.map (fun x => x.2.2) (get_type schema (fuel+1) value seen) =
        .ok (insertKV seen (strip_ref_name r) cyclePlaceholder)) ∧
    (∀ (fuel : Nat) (value schema : Json) (seen : Cache) (r : String)
      (st : Json) (seen2 : Cache),
      value.get "$ref" = some (Json.str r) →
      List.lookup (strip_ref_name r) seen = none →
      get_type_of_definition schema (fuel+1) r
        (insertKV seen (strip_ref_name r) (Json.str "in progress")) = .ok (st, seen2) →
      Except.map (fun x => x.1) (get_type schema (fuel+2) value seen) = .ok st ∧
      Except.map (fun x => x.2.2) (get_type schema (fuel+2) value seen) =
        .ok (insertKV seen2 (strip_ref_name r) st)) := by
  constructor
  · intro fuel value schema seen r href hseen
    constructor <;> simp [get_type, href, hseen, Except.map]
  · intro fuel value schema seen r st seen2 href hseen hres
    constructor <;> simp [get_type, href, hseen, hres, Except.map]

/-- C7 amended, witness: with "Node" marked in-progress the reference
resolves to the placeholder and records it; starting from an empty cache the
reference resolves to the full struct and the cache ends with the struct,
overwriting the placeholder recorded mid-resolution. -/
theorem c7_cycle_cache_amended_witness :
    (Except.map (fun x => x.1)
      (get_type c7Schema 5 c7RefNode [("Node", Json.str "in progress")]) =
      .ok cyclePlaceholder ∧
     Except.map (fun x => x.2.2)
      (get_type c7Schema 5 c7RefNode [("Node", Json.str "in progress")]) =
      .ok [("Node", cyclePlaceholder)]) ∧
    (Except.map (fun x => x.1) (get_type c7Schema 7 c7RefNode []) = .ok c7NodeStruct ∧
     Except.map (fun x => x.2.2) (get_type c7Schema 7 c7RefNode []) =
      .ok [("Node", c7NodeStruct)]) :=
  ⟨c7_cycle_cache_amended.1 4 c7RefNode c7Schema [("Node", Json.str "in progress")]
      "#/definitions/Node" rfl rfl,
   c7_cycle_cache_amended.2 5 c7RefNode c7Schema [] "#/definitions/Node" c7NodeStruct
      [("Node", cyclePlaceholder)] rfl rfl rfl⟩

/-- C8: whenever `get_fields` succeeds on a node, the produced fields carry
exactly the node's property names, in declaration order.  Every struct in
the output — the top level and each nested struct — is produced by such a
`get_fields` call on its source node, so the statement covers them all. -/
theorem c8_field_order (schema : Json) (fuel : Nat) (s : Json) (seen : Cache)
    (fields : List Json) (seen2 : Cache)
    (h : get_fields schema fuel s seen = .ok (fields, seen2)) :
    fields.map (fun f => f.lookup "name") = (propKeys s).map (fun k => some (Json.str k)) := by
  cases fuel with
  | zero => simp [get_fields] at h
  | succ n =>
    simp only [get_fields] at h
    unfold propKeys
    cases hp : (s.get "properties").getD (Json.obj []) with
    | obj kvs =>
      rw [hp] at h
      simp only at h
      have := get_fields_loop_names schema kvs n ((s.get "required").getD (Json.arr []))
        ((s.get "title").getD Json.null) seen fields seen2 h
      rw [this]
      simp [List.map_map, Function.comp]
    | null => rw [hp] at h; simp at h
    | bool b => rw [hp] at h; simp at h
    | num i => rw [hp] at h; simp at h
    | str t => rw [hp] at h; simp at h
    | arr xs => rw [hp] at h; simp at h

/-- C8 witness: the example schema's fields are named "id" then "name",
matching the declaration order of its properties. -/
theorem c8_field_order_witness :
    exampleFields.map (fun f => f.lookup "name") =
      (propKeys exampleSchema).map (fun k => some (Json.str k)) :=
  c8_field_order exampleSchema 20 exampleSchema [] exampleFields [] rfl

/-- C9: a schema without a "properties" key — or with an empty properties
mapping — translates to the empty struct `{"fields": [], "type": "struct"}`
without error (first two conjuncts), and a missing "required" key defaults
to the empty list, so no key counts as required (third conjunct). -/
theorem c9_missing_properties_empty_struct :
    (∀ (fuel : Nat) (schema : Json), schema.lookup "properties" = none →
      _spark_schema (fuel+2) schema =
        .ok (Json.obj [("fields", Json.arr []), ("type", Json.str "struct")])) ∧
    (∀ (fuel : Nat) (schema : Json), schema.lookup "properties" = some (Json.obj []) →
      _spark_schema (fuel+2) schema =
        .ok (Json.obj [("fields", Json.arr []), ("type", Json.str "struct")])) ∧
    (∀ (s : Json) (key : String), s.lookup "required" = none →
      requiredContains ((s.get "required").getD (Json.arr [])) key = false) := by
  refine ⟨fun fuel schema h => ?_, fun fuel schema h => ?_, fun s key h => ?_⟩
  · have hg : schema.get "properties" = none := by simp [Json.get, h]
    simp [_spark_schema, get_fields, get_fields_loop, hg]
  · have hg : schema.get "properties" = some (Json.obj []) := by simp [Json.get, h]
    simp [_spark_schema, get_fields, get_fields_loop, hg]
  · simp [Json.get, h, requiredContains]

/-- C9 witness: a schema with only a title yields the empty struct, so does
one with an explicitly empty properties mapping, and with "required" absent
no key counts as required. -/
theorem c9_missing_properties_empty_struct_witness :
    _spark_schema 2 (Json.obj [("title", Json.str "Empty")]) =
      .ok (Json.obj [("fields", Json.arr []), ("type", Json.str "struct")]) ∧
    _spark_schema 2 (Json.obj [("properties", Json.obj [])]) =
      .ok (Json.obj [("fields", Json.arr []), ("type", Json.str "struct")]) ∧
    requiredContains (((Json.obj [("title", Json.str "Empty")]).get "required").getD
      (Json.arr [])) "id" = false :=
  ⟨c9_missing_properties_empty_struct.1 0 (Json.obj [("title", Json.str "Empty")]) rfl,
   c9_missing_properties_empty_struct.2.1 0 (Json.obj [("properties", Json.obj [])]) rfl,
   c9_missing_properties_empty_struct.2.2 (Json.obj [("title", Json.str "Empty")]) "id" rfl⟩

/-- C10: whenever `get_fields` succeeds on a node, every produced field's
metadata contains a "parentClass" entry whose value is the node's "title"
(and `null` when the node has no title, since `p_class` defaults to null);
nested structs are produced by `get_fields` on their own nodes, so the
statement covers every field of the output. -/
theorem c10_parent_class_present (schema : Json) (fuel : Nat) (s : Json) (seen : Cache)
    (fields : List Json) (seen2 : Cache)
    (h : get_fields schema fuel s seen = .ok (fields, seen2)) :
    ∀ f ∈ fields, (f.lookup "metadata").bind (fun m => m.lookup "parentClass") =
      some ((s.get "title").getD Json.null) := by
  cases fuel with
  | zero => simp [get_fields] at h
  | succ n =>
    simp only [get_fields] at h
    cases hp : (s.get "properties").getD (Json.obj []) with
    | obj kvs =>
      rw [hp] at h
      simp only at h
      exact get_fields_loop_parent schema kvs n ((s.get "required").getD (Json.arr []))
        ((s.get "title").getD Json.null) seen fields seen2 h
    | null => rw [hp] at h; simp at h
    | bool b => rw [hp] at h; simp at h
    | num i => rw [hp] at h; simp at h
    | str t => rw [hp] at h; simp at h
    | arr xs => rw [hp] at h; simp at h

/-- C10 witness: the "id" field of the example schema carries
`parentClass = "Root"` in its metadata. -/
theorem c10_parent_class_present_witness :
    ((Json.obj [("name", Json.str "id"), ("nullable", Json.bool false),
      ("metadata", Json.obj [("parentClass", Json.str "Root")]),
      ("type", Json.str "long")]).lookup "metadata").bind
        (fun m => m.lookup "parentClass") =
      some ((exampleSchema.get "title").getD Json.null) :=
  c10_parent_class_present exampleSchema 20 exampleSchema [] exampleFields [] rfl
    (Json.obj [("name", Json.str "id"), ("nullable", Json.bool false),
      ("metadata", Json.obj [("parentClass", Json.str "Root")]),
      ("type", Json.str "long")])
    (by simp [exampleFields])
